import Mathlib

/-!
Verification of the conversational tool-routing layer of the kali-linux-mcp
repository (src/v2: ai_assistant.py, telegram_bot.py, tool_executor.py,
tool_system.py, tool_discovery.py, config.py).

The Python code is shallowly embedded: dictionaries produced by `json.loads`
become the inductive `Json` type, Python string operations (`strip`, `split`,
`replace`, slicing) become executable functions over `List Char`, and the two
external effects (the OpenAI completion call and subprocess execution) become
explicit outcome parameters (`ApiOutcome`, `ProcOutcome`) supplied to the
embedded functions, so every embedded function is total and executable.
-/

namespace KaliMCP

/-- Values produced by Python's `json.loads`: JSON null, booleans, numbers
(restricted to integers, which covers every value the routed shapes use),
strings, arrays and objects.  Objects keep their key/value pairs in insertion
order, as Python dicts do. -/
inductive Json where
  | null
  | bool (b : Bool)
  | num (n : Int)
  | str (s : String)
  | arr (elems : List Json)
  | obj (fields : List (String × Json))

/-- Python `str.strip` whitespace set: space, tab, newline, carriage return,
vertical tab and form feed. -/
def isPySpace (c : Char) : Bool :=
  c = ' ' || c = '\t' || c = '\n' || c = '\r' || c = '\x0b' || c = '\x0c'

/-- Left strip, as in Python `str.lstrip()`. -/
def lstripL (xs : List Char) : List Char := xs.dropWhile isPySpace

/-- Right strip, as in Python `str.rstrip()`. -/
def rstripL (xs : List Char) : List Char := (xs.reverse.dropWhile isPySpace).reverse

/-- Python `str.strip()` on a character list. -/
def pyStripL (xs : List Char) : List Char := rstripL (lstripL xs)

/-- Python `str.strip()` on a string. -/
def pyStrip (s : String) : String := ⟨pyStripL s.data⟩

/-- Whether `pat` occurs as a contiguous subsequence of `xs` (Python's
`pat in s` for strings). -/
def containsSeq (pat : List Char) : List Char → Bool
  | [] => pat.isPrefixOf []
  | c :: cs => pat.isPrefixOf (c :: cs) || containsSeq pat cs

/-- Python `needle in s` on strings. -/
def strContains (needle s : String) : Bool := containsSeq needle.data s.data

/-- Python `s.split(pat)` (all occurrences, left to right, non-overlapping).
Python raises `ValueError` on an empty separator; callers here always pass a
non-empty literal separator. -/
def pySplit (pat : List Char) : List Char → List (List Char)
  | [] => [[]]
  | c :: cs =>
    if pat ≠ [] ∧ pat.isPrefixOf (c :: cs) then
      [] :: pySplit pat (cs.drop (pat.length - 1))
    else
      match pySplit pat cs with
      | [] => [[c]]
      | s :: ss => (c :: s) :: ss
termination_by xs => xs.length
decreasing_by
  all_goals simp only [List.length_drop, List.length_cons]
  all_goals omega

/-- Prefix of `xs` up to (excluding) the first occurrence of `pat`; all of
`xs` if `pat` does not occur.  This is `s.split(pat)[0]`, used to state
properties of `pySplit`. -/
def beforeFirst (pat : List Char) : List Char → List Char
  | [] => []
  | c :: cs =>
    if pat ≠ [] ∧ pat.isPrefixOf (c :: cs) then []
    else c :: beforeFirst pat cs

/-- Python list indexing with a default.  Python raises `IndexError` when the
index is out of range; the single use in the response parser is guarded by a
`startswith` check that guarantees the index exists, so the default is
unreachable there. -/
def pyGetD (xs : List (List Char)) (i : Nat) : List Char := (xs.get? i).getD []

/-- Python slice `xs[-n:]`: the last `n` elements (all of them when the list
is shorter than `n`). -/
def pySliceLastN {α : Type} (n : Nat) (xs : List α) : List α :=
  xs.drop (xs.length - n)

/-- Python `s.replace(pat, rep)` worker with explicit fuel (the fuel is set to
the length of the input, which is enough to process it entirely). -/
def replaceAux (pat rep : List Char) : Nat → List Char → List Char
  | _, [] => []
  | 0, xs => xs
  | fuel + 1, c :: cs =>
    if pat ≠ [] ∧ pat.isPrefixOf (c :: cs) then
      rep ++ replaceAux pat rep fuel (cs.drop (pat.length - 1))
    else
      c :: replaceAux pat rep fuel cs

/-- Python `s.replace(pat, rep)` on strings.  The only caller replaces a
non-empty configured root password, so the empty-pattern behaviour of Python
(interleaving `rep` everywhere) is irrelevant and not modelled. -/
def pyReplaceStr (s pat rep : String) : String :=
  ⟨replaceAux pat.data rep.data s.data.length s.data⟩

/-- Chunking produced by `for i in range(0, len(output), n)` over
`output[i:i+n]`, with explicit fuel (one unit per chunk suffices; the fuel is
set to the input length, which is always enough for `n > 0`). -/
def chunksAux (n : Nat) : Nat → List Char → List (List Char)
  | _, [] => []
  | 0, xs => [xs]
  | fuel + 1, xs => xs.take n :: chunksAux n fuel (xs.drop n)

/-- All chunks `output[i:i+n]` for `i = 0, n, 2n, ...` (Python
`range(0, len(output), n)`). -/
def pyChunks (n : Nat) (xs : List Char) : List (List Char) :=
  chunksAux n xs.length xs

/-! JSON parsing.  Model of the Python standard-library `json.loads` on the
JSON subset actually exchanged with the model: integer numbers and the
single-character string escapes (no `\uXXXX`).  Inputs outside the subset are
rejected (parse failure), which `ai_assistant.py` treats as a
`json.JSONDecodeError`. -/

/-- JSON insignificant whitespace. -/
def isJsonWs (c : Char) : Bool := c = ' ' || c = '\t' || c = '\n' || c = '\r'

/-- Skip JSON whitespace. -/
def skipWs (xs : List Char) : List Char := xs.dropWhile isJsonWs

/-- Parse the body of a JSON string literal after the opening quote, returning
the decoded content and the input after the closing quote. -/
def parseStrBody : Nat → List Char → Option (List Char × List Char)
  | _, [] => none
  | 0, _ => none
  | fuel + 1, c :: cs =>
    if c = '"' then some ([], cs)
    else if c = '\\' then
      match cs with
      | [] => none
      | e :: cs' =>
        let esc : Option Char :=
          if e = '"' then some '"'
          else if e = '\\' then some '\\'
          else if e = '/' then some '/'
          else if e = 'n' then some '\n'
          else if e = 't' then some '\t'
          else if e = 'r' then some '\r'
          else if e = 'b' then some (Char.ofNat 8)
          else if e = 'f' then some (Char.ofNat 12)
          else none
        match esc with
        | some ch => (parseStrBody fuel cs').map (fun p => (ch :: p.1, p.2))
        | none => none
    else (parseStrBody fuel cs).map (fun p => (c :: p.1, p.2))

/-- Decimal digits at the head of the input, with their value. -/
def parseDigits (xs : List Char) : Option (Nat × List Char) :=
  let ds := xs.takeWhile Char.isDigit
  if ds.isEmpty then none
  else some (ds.foldl (fun a c => a * 10 + (c.toNat - 48)) 0, xs.dropWhile Char.isDigit)

/-- Insert a key/value pair into an object under construction, as Python dict
assignment does: overwrite in place when the key exists, append otherwise. -/
def objInsert (kvs : List (String × Json)) (k : String) (v : Json) :
    List (String × Json) :=
  if kvs.any (fun p => p.1 == k) then
    kvs.map (fun p => if p.1 == k then (k, v) else p)
  else kvs ++ [(k, v)]

mutual

/-- Parse one JSON value at the head of the input. -/
def parseValue : Nat → List Char → Option (Json × List Char)
  | 0, _ => none
  | fuel + 1, xs =>
    match skipWs xs with
    | 'n' :: 'u' :: 'l' :: 'l' :: r => some (.null, r)
    | 't' :: 'r' :: 'u' :: 'e' :: r => some (.bool true, r)
    | 'f' :: 'a' :: 'l' :: 's' :: 'e' :: r => some (.bool false, r)
    | '"' :: r => (parseStrBody (fuel + 1) r).map (fun p => (.str ⟨p.1⟩, p.2))
    | '-' :: r => (parseDigits r).map (fun p => (.num (-(p.1 : Int)), p.2))
    | '[' :: r =>
      match skipWs r with
      | ']' :: r2 => some (.arr [], r2)
      | r2 => (parseArrItems fuel r2).map (fun p => (.arr p.1, p.2))
    | '{' :: r =>
      match skipWs r with
      | '}' :: r2 => some (.obj [], r2)
      | r2 =>
        (parseObjItems fuel r2).map
          (fun p => (.obj (p.1.foldl (fun acc kv => objInsert acc kv.1 kv.2) []), p.2))
    | c :: r =>
      if c.isDigit then (parseDigits (c :: r)).map (fun p => (.num (p.1 : Int), p.2))
      else none
    | [] => none

/-- Parse the comma-separated elements of a non-empty JSON array, consuming
the closing bracket. -/
def parseArrItems : Nat → List Char → Option (List Json × List Char)
  | 0, _ => none
  | fuel + 1, xs =>
    match parseValue fuel xs with
    | none => none
    | some (v, rest) =>
      match skipWs rest with
      | ',' :: r2 => (parseArrItems fuel r2).map (fun p => (v :: p.1, p.2))
      | ']' :: r2 => some ([v], r2)
      | _ => none

/-- Parse the comma-separated members of a non-empty JSON object, consuming
the closing brace. -/
def parseObjItems : Nat → List Char → Option (List (String × Json) × List Char)
  | 0, _ => none
  | fuel + 1, xs =>
    match skipWs xs with
    | '"' :: r =>
      match parseStrBody (fuel + 1) r with
      | none => none
      | some (k, rest) =>
        match skipWs rest with
        | ':' :: r2 =>
          match parseValue fuel r2 with
          | none => none
          | some (v, rest2) =>
            match skipWs rest2 with
            | ',' :: r3 => (parseObjItems fuel r3).map (fun p => ((⟨k⟩, v) :: p.1, p.2))
            | '}' :: r3 => some ([(⟨k⟩, v)], r3)
            | _ => none
        | _ => none
    | _ => none

end

/-- Model of Python `json.loads`: parse a single JSON document and reject
trailing garbage. -/
def jsonLoads (xs : List Char) : Option Json :=
  match parseValue (xs.length + 1) xs with
  | some (v, rest) => if (skipWs rest).isEmpty then some v else none
  | none => none

mutual

/-- Python `str(v)` for a parsed JSON value appearing inside an f-string
(`ai_assistant.py` interpolates the model-proposed tool name into the
install-suggestion text).  Strings interpolate as themselves; containers use
Python `repr` for their elements. -/
def pyFStr : Json → String
  | .str s => s
  | .null => "None"
  | .bool true => "True"
  | .bool false => "False"
  | .num n => toString n
  | .arr xs => "[" ++ String.intercalate ", " (pyFStrList xs) ++ "]"
  | .obj kvs => "\x7b" ++ String.intercalate ", " (pyFStrKV kvs) ++ "\x7d"

/-- Python `repr` of each element of a list value. -/
def pyFStrList : List Json → List String
  | [] => []
  | .str s :: rest => ("\x27" ++ s ++ "\x27") :: pyFStrList rest
  | v :: rest => pyFStr v :: pyFStrList rest

/-- Python `repr` of each member of a dict value. -/
def pyFStrKV : List (String × Json) → List String
  | [] => []
  | (k, .str s) :: rest =>
    ("\x27" ++ k ++ "\x27: " ++ "\x27" ++ s ++ "\x27") :: pyFStrKV rest
  | (k, v) :: rest => ("\x27" ++ k ++ "\x27: " ++ pyFStr v) :: pyFStrKV rest

end

/-! Embedding of `config.py`. -/

/-- Number of stored entries to re-send as model context
(`config.py`: `AI_MAX_CONTEXT = 10`). -/
def AI_MAX_CONTEXT : Nat := 10

/-! Embedding of `tool_discovery.py`.  `check_tool_installed` shells out to
`which`, an external effect; its outcome is supplied through the environment
(`ChatEnv.installed`).  The `except` clause of `check_tool_installed` swallows
every failure (including the `TypeError` raised for a non-string tool name)
and reports the tool as not installed. -/

/-- Install-command table of `ToolDiscovery.suggest_install`
(`tool_discovery.py` lines 197-218). -/
def installCommands : List (String × String) :=
  [("nmap", "sudo apt install nmap"),
   ("nikto", "sudo apt install nikto"),
   ("gobuster", "sudo apt install gobuster"),
   ("sqlmap", "sudo apt install sqlmap"),
   ("hydra", "sudo apt install hydra"),
   ("john", "sudo apt install john"),
   ("hashcat", "sudo apt install hashcat"),
   ("aircrack-ng", "sudo apt install aircrack-ng"),
   ("wireshark", "sudo apt install wireshark"),
   ("metasploit-framework", "sudo apt install metasploit-framework"),
   ("msfvenom", "sudo apt install metasploit-framework"),
   ("wpscan", "sudo gem install wpscan"),
   ("whatweb", "sudo apt install whatweb"),
   ("enum4linux", "sudo apt install enum4linux"),
   ("masscan", "sudo apt install masscan"),
   ("reaver", "sudo apt install reaver"),
   ("ettercap", "sudo apt install ettercap-graphical"),
   ("binwalk", "sudo apt install binwalk"),
   ("volatility", "sudo apt install volatility")]

/-- The `install_command` field computed by `ToolDiscovery.suggest_install`:
`install_commands.get(tool_name, f"sudo apt install ✲tool_name✲")` (the table
lookup with an apt fallback). -/
def suggestInstallCommand (tool : String) : String :=
  (installCommands.lookup tool).getD ("sudo apt install " ++ tool)

/-! Embedding of `ai_assistant.py`. -/

/-- One entry of a per-user conversation history: a role-tagged message, as
appended by `AIAssistant.chat`. -/
structure Msg where
  role : String
  content : String

/-- The `AIAssistant.user_contexts` dict: user id to stored history. -/
def Contexts : Type := List (Int × List Msg)

/-- Python dict assignment `d[k] = v`: overwrite in place, else append. -/
def ctxSet : Contexts → Int → List Msg → Contexts
  | [], uid, v => [(uid, v)]
  | (k, w) :: rest, uid, v =>
    if k = uid then (uid, v) :: rest
    else (k, w) :: ctxSet rest uid v

/-- Python dict read `d.get(k, default)` on the context store. -/
def ctxGet (m : Contexts) (uid : Int) : List Msg := (m.lookup uid).getD []

/-- Outcome of the awaited OpenAI completion call: either the call raised
(timeout, transport failure, non-2xx — modelled as a single failure message,
the `str(e)` of the raised exception) or it returned the reply text. -/
inductive ApiOutcome where
  | failure (msg : String)
  | reply (text : String)

/-- External collaborators of `AIAssistant.chat`: whether the OpenAI client
was configured (`is_available`) and the result of the `which`-based
tool-availability check for each tool name. -/
structure ChatEnv where
  available : Bool
  installed : String → Bool

/-- The recent-context read of `AIAssistant.chat` (lines 85 and 91):
`self.user_contexts.get(user_id, [])` sliced to `[-AI_MAX_CONTEXT:]`. -/
def recentContext (ctxs : Contexts) (uid : Int) : List Msg :=
  pySliceLastN AI_MAX_CONTEXT (ctxGet ctxs uid)

/-- The message list built by `AIAssistant.chat` (lines 88-95) and sent to the
completion API: system prompt, then the last `AI_MAX_CONTEXT` stored entries,
then the new user message. -/
def buildMessages (systemPrompt : String) (ctxs : Contexts) (uid : Int)
    (userMessage : String) : List Msg :=
  ⟨"system", systemPrompt⟩ ::
    (pySliceLastN AI_MAX_CONTEXT (ctxGet ctxs uid) ++ [⟨"user", userMessage⟩])

/-- The `_parse_ai_response` method (`ai_assistant.py` lines 158-181): strip a
leading markdown fence (preferring the ` ```json ` marker), then `json.loads`;
`none` is the re-raised `json.JSONDecodeError`. -/
def parseAIResponse (response : String) : Option Json :=
  if "```json".data.isPrefixOf (pyStripL response.data) then
    jsonLoads (pyStripL
      (pyGetD (pySplit "```".data (pyGetD (pySplit "```json".data response.data) 1)) 0))
  else if "```".data.isPrefixOf (pyStripL response.data) then
    jsonLoads (pyStripL
      (pyGetD (pySplit "```".data (pyGetD (pySplit "```".data response.data) 1)) 0))
  else jsonLoads (pyStripL response.data)

/-- The error dict returned by `chat` when `is_available()` is false. -/
def errNoAI : Json :=
  .obj [("error", .str "IA no disponible"),
        ("suggestion", .str "Configura OPENAI_API_KEY en el archivo .env")]

/-- The error dict of the `json.JSONDecodeError` handler of `chat`. -/
def errParse : Json :=
  .obj [("error", .str "Error al parsear respuesta de IA"),
        ("suggestion",
         .str "Intenta reformular tu pregunta. La IA está respondiendo texto en lugar de JSON.")]

/-- The error dict of the generic `except Exception` handler of `chat`. -/
def errGeneric (msg : String) : Json :=
  .obj [("error", .str ("Error de IA: " ++ msg)),
        ("suggestion", .str "Intenta de nuevo o usa comandos directos")]

/-- The `check_tool_installed` call as made from `chat` on the parsed `"tool"`
value: for a string name it is the external `which` check; any other value
makes `subprocess.run` raise, which the bare `except` converts to `False`. -/
def checkToolInstalled (env : ChatEnv) : Json → Bool
  | .str s => env.installed s
  | _ => false

/-- The `suggest_install(...)["install_command"]` value as used from `chat`:
table lookup for a string name; any other value misses the table and lands in
the f-string fallback. -/
def suggestInstallForValue : Json → String
  | .str s => suggestInstallCommand s
  | v => "sudo apt install " ++ pyFStr v

/-- The post-parse step of `chat` (`ai_assistant.py` lines 126-137): the
`"tool" in parsed` membership test with Python semantics (key membership for a
dict, element equality for a list, substring for a string, `TypeError` —
caught by the generic handler — otherwise), the availability substitution, and
the final result.  `errGeneric` stands for the generic handler's dict; the
`str(e)` text of an internal `TypeError` is abbreviated to `"TypeError"`. -/
def chatToolStep (env : ChatEnv) (parsed : Json) : Json :=
  match parsed with
  | .obj kvs =>
    match kvs.lookup "tool" with
    | some toolVal =>
      if checkToolInstalled env toolVal then parsed
      else
        .obj [("tool_not_installed", toolVal),
              ("install_command", .str (suggestInstallForValue toolVal)),
              ("offer_install", .bool true),
              ("explanation",
               .str (pyFStr toolVal ++ " no está instalada. ¿Quieres que la instale?"))]
    | none => parsed
  | .str s => if strContains "tool" s then errGeneric "TypeError" else parsed
  | .arr xs =>
    if xs.any (fun e => match e with | .str t => t == "tool" | _ => false) then
      errGeneric "TypeError"
    else parsed
  | _ => errGeneric "TypeError"

/-- The `AIAssistant.chat` method (`ai_assistant.py` lines 66-156), with the
completion call replaced by its outcome.  Returns the result dict and the
updated `user_contexts` store.  The store is written (lines 116-120) before
parsing, so a parse failure still appends; an API failure raises before the
write, so the store is unchanged there. -/
def chat (env : ChatEnv) (outcome : ApiOutcome) (ctxs : Contexts) (uid : Int)
    (userMessage : String) : Json × Contexts :=
  if env.available then
    let context := ctxGet ctxs uid
    match outcome with
    | .failure emsg => (errGeneric emsg, ctxs)
    | .reply text =>
      let aiResponse := pyStrip text
      let ctxs' := ctxSet ctxs uid
        (context ++ [⟨"user", userMessage⟩, ⟨"assistant", aiResponse⟩])
      match parseAIResponse aiResponse with
      | none => (errParse, ctxs')
      | some parsed => (chatToolStep env parsed, ctxs')
  else (errNoAI, ctxs)

/-! Embedding of `KaliTelegramBot._handle_ai_response`
(`telegram_bot.py` lines 238-346): the dispatcher over the shape of the chat
result dict. -/

/-- The action the handler takes for a result dict: which branch of the
`if`-ladder fires and with which payloads.  `crash` marks a `KeyError` raised
by the direct `ai_result["install_command"]` index when the key is absent
(uncaught in the handler); `unknown` is the final fallback reply
("No entendí esa respuesta"). -/
inductive BotAction where
  | conversation (text : Json)
  | question (text : Json) (suggestions : Json)
  | toolNotInstalled (tool : Json) (installCommand : Json) (explanation : Json)
  | execute (tool : Json) (parameters : Json) (explanation : Json)
  | error (message : Json) (suggestion : Json)
  | unknown
  | crash

/-- Branch selection of `_handle_ai_response` on a result dict, in source
order: conversation, question, tool_not_installed, tool + parameters, error,
unknown. -/
def classify (d : List (String × Json)) : BotAction :=
  match d.lookup "conversation" with
  | some text => .conversation text
  | none =>
    match d.lookup "question" with
    | some q => .question q ((d.lookup "suggestions").getD (.arr []))
    | none =>
      match d.lookup "tool_not_installed" with
      | some t =>
        match d.lookup "install_command" with
        | some c => .toolNotInstalled t c ((d.lookup "explanation").getD (.str ""))
        | none => .crash
      | none =>
        match d.lookup "tool", d.lookup "parameters" with
        | some t, some p =>
          .execute t p ((d.lookup "explanation").getD (.str "Ejecutando..."))
        | _, _ =>
          match d.lookup "error" with
          | some e => .error e ((d.lookup "suggestion").getD (.str ""))
          | none => .unknown

/-- The chunked transport messages for a successful tool run
(`telegram_bot.py` lines 310-321 and `kali_mcp_server_telegram.py` lines
1009-1019): output over 4000 characters is sent as the slices
`output[i:i+4000]`, otherwise as a single message. -/
def sentChunks (output : List Char) : List (List Char) :=
  if 4000 < output.length then pyChunks 4000 output else [output]

/-! Embedding of `tool_executor.py` and `tool_system.py`. -/

/-- Outcome of an awaited `create_subprocess_shell` + `communicate` pair:
the process completed (with captured streams and exit code), `wait_for` timed
out, or the spawn itself raised. -/
inductive ProcOutcome where
  | completed (stdout stderr : String) (returncode : Int)
  | timedOut
  | spawnFailure (msg : String)

/-- The timeout error message of both executors:
`f"Comando excedió el timeout de ✲timeout✲ segundos"`. -/
def timeoutMsg (timeout : Nat) : String :=
  "Comando excedió el timeout de " ++ toString timeout ++ " segundos"

/-- `ToolExecutor.run_command` (`tool_executor.py` lines 19-54).  The second
component records whether `process.kill()` was invoked. -/
def runCommand (command : String) (timeout : Nat) (outcome : ProcOutcome) :
    Json × Bool :=
  match outcome with
  | .completed out err rc =>
    (.obj [("success", .bool true),
           ("command", .str command),
           ("stdout", .str out),
           ("stderr", .str err),
           ("returncode", .num rc)], false)
  | .timedOut =>
    (.obj [("success", .bool false),
           ("command", .str command),
           ("error", .str (timeoutMsg timeout))], true)
  | .spawnFailure msg =>
    (.obj [("success", .bool false),
           ("command", .str command),
           ("error", .str msg)], false)

/-- The effective command line assembled by `ToolSystemManager._run_command`
(`tool_system.py` lines 24-29): `echo "✲pw✲" | sudo -S cmd` when sudo is
requested and a root password is configured, plain `sudo cmd` when sudo is
requested without a password, the command itself otherwise. -/
def effectiveCommand (rootPassword command : String) (useSudo : Bool) : String :=
  if useSudo && rootPassword ≠ "" then
    "echo \"" ++ rootPassword ++ "\" | sudo -S " ++ command
  else if useSudo then "sudo " ++ command
  else command

/-- The redacted command reported by `ToolSystemManager._run_command`:
`command.replace(self.root_password, "***") if self.root_password else
command`. -/
def redactedCommand (rootPassword cmd : String) : String :=
  if rootPassword ≠ "" then pyReplaceStr cmd rootPassword "***" else cmd

/-- `ToolSystemManager._run_command` (`tool_system.py` lines 21-63).  The
success and timeout branches report the redacted command; the exception
branch (spawn failure) reports the raw command.  The second component records
whether `process.kill()` was invoked. -/
def systemRunCommand (rootPassword command : String) (timeout : Nat)
    (useSudo : Bool) (outcome : ProcOutcome) : Json × Bool :=
  let cmd := effectiveCommand rootPassword command useSudo
  match outcome with
  | .completed out err rc =>
    (.obj [("success", .bool true),
           ("command", .str (redactedCommand rootPassword cmd)),
           ("stdout", .str out),
           ("stderr", .str err),
           ("returncode", .num rc)], false)
  | .timedOut =>
    (.obj [("success", .bool false),
           ("command", .str (redactedCommand rootPassword cmd)),
           ("error", .str (timeoutMsg timeout))], true)
  | .spawnFailure msg =>
    (.obj [("success", .bool false),
           ("command", .str cmd),
           ("error", .str msg)], false)

/-! General lemmas about the Python string helpers. -/

theorem containsSeq_iff (pat xs : List Char) :
    containsSeq pat xs = true ↔ pat <:+: xs := by
  induction xs with
  | nil =>
    cases pat <;>
      simp [containsSeq, List.isPrefixOf, List.infix_nil]
  | cons c cs ih =>
    simp [containsSeq, Bool.or_eq_true, ih, List.isPrefixOf_iff_prefix,
      List.infix_cons_iff]

theorem containsSeq_append_left (pat a b : List Char)
    (h : containsSeq pat a = true) : containsSeq pat (a ++ b) = true := by
  rw [containsSeq_iff] at h ⊢
  obtain ⟨s, t, rfl⟩ := h
  exact ⟨s, t ++ b, by simp⟩

theorem data_ne_nil_of_ne_empty (s : String) (h : s ≠ "") : s.data ≠ [] := by
  intro hd
  apply h
  cases s
  simp_all

/-! Claim C7: subprocess timeout handling in `ToolExecutor.run_command`. -/

/-- Claim C7: for every command string and timeout value, a subprocess that
exceeds its configured timeout yields a result with `success = false` and an
error message containing "timeout", and `process.kill()` is invoked (no
indefinite hang). -/
theorem c7_timeout_kills_and_reports (cmd : String) (timeout : Nat) :
    (runCommand cmd timeout .timedOut).2 = true ∧
    ∃ kvs, (runCommand cmd timeout .timedOut).1 = .obj kvs ∧
      kvs.lookup "success" = some (.bool false) ∧
      ∃ m, kvs.lookup "error" = some (.str m) ∧ strContains "timeout" m = true := by
  refine ⟨rfl, _, rfl, rfl, timeoutMsg timeout, rfl, ?_⟩
  show containsSeq "timeout".data (timeoutMsg timeout).data = true
  have hdata : (timeoutMsg timeout).data =
      "Comando excedió el timeout de ".data ++ (toString timeout ++ " segundos").data := by
    simp [timeoutMsg, String.data_append, String.append_assoc]
  rw [hdata]
  exact containsSeq_append_left _ _ _ (by decide)

/-! Claim C10: totality and shape of `ToolExecutor.run_command` results. -/

/-- Claim C10: `run_command` is total and always returns a dict with a boolean
`success` and the `command`; `success` is true exactly when the subprocess
completed before the timeout (even with a non-zero exit code, in which case
`stdout`, `stderr` and `returncode` are present), and false with an `error`
string on timeout or spawn failure. -/
theorem c10_run_command_total_shape (cmd : String) (timeout : Nat)
    (outcome : ProcOutcome) :
    ∃ kvs, (runCommand cmd timeout outcome).1 = .obj kvs ∧
      kvs.lookup "command" = some (.str cmd) ∧
      ∃ b, kvs.lookup "success" = some (.bool b) ∧
        (b = true ↔ ∃ out err rc, outcome = .completed out err rc) ∧
        (b = true →
          (∃ o, kvs.lookup "stdout" = some (.str o)) ∧
          (∃ e, kvs.lookup "stderr" = some (.str e)) ∧
          (∃ rc, kvs.lookup "returncode" = some (.num rc))) ∧
        (b = false → ∃ m, kvs.lookup "error" = some (.str m)) := by
  cases outcome with
  | completed out err rc =>
    refine ⟨_, rfl, rfl, true, rfl, ?_, ?_, ?_⟩
    · exact ⟨fun _ => ⟨out, err, rc, rfl⟩, fun _ => rfl⟩
    · exact fun _ => ⟨⟨out, rfl⟩, ⟨err, rfl⟩, ⟨rc, rfl⟩⟩
    · exact fun h => nomatch h
  | timedOut =>
    refine ⟨_, rfl, rfl, false, rfl, ?_, ?_, ?_⟩
    · constructor
      · intro hb
        exact nomatch hb
      · rintro ⟨o, e, rc, hoc⟩
        exact nomatch hoc
    · exact fun h => nomatch h
    · exact fun _ => ⟨timeoutMsg timeout, rfl⟩
  | spawnFailure m =>
    refine ⟨_, rfl, rfl, false, rfl, ?_, ?_, ?_⟩
    · constructor
      · intro hb
        exact nomatch hb
      · rintro ⟨o, e, rc, hoc⟩
        exact nomatch hoc
    · exact fun h => nomatch h
    · exact fun _ => ⟨m, rfl⟩

/-- Witness for C10 at a concrete completed run with a non-zero exit code:
`success` is still true. -/
theorem c10_witness :
    ∃ kvs, (runCommand "nmap -p 80 10.0.0.1" 600 (.completed "out" "err" 1)).1 = .obj kvs ∧
      kvs.lookup "success" = some (.bool true) := by
  obtain ⟨kvs, h1, -, b, h2, h3, -⟩ :=
    c10_run_command_total_shape "nmap -p 80 10.0.0.1" 600 (.completed "out" "err" 1)
  exact ⟨kvs, h1, by rw [h2, h3.mpr ⟨"out", "err", 1, rfl⟩]⟩

/-! Claim C9: transport chunking of long outputs. -/

theorem chunksAux_le_length (n fuel : Nat) (xs : List Char)
    (hf : xs.length ≤ fuel) (hn : 0 < n) :
    ∀ c ∈ chunksAux n fuel xs, c.length ≤ n := by
  induction fuel generalizing xs with
  | zero =>
    cases xs with
    | nil => simp [chunksAux]
    | cons c cs => simp at hf
  | succ fuel ih =>
    cases xs with
    | nil => simp [chunksAux]
    | cons c cs =>
      intro ch hch
      simp only [chunksAux, List.mem_cons] at hch
      rcases hch with rfl | hch
      · exact List.length_take_le n (c :: cs)
      · refine ih ((c :: cs).drop n) ?_ ch hch
        simp only [List.length_drop, List.length_cons] at hf ⊢
        omega

theorem chunksAux_flatten (n fuel : Nat) (xs : List Char)
    (hf : xs.length ≤ fuel) (hn : 0 < n) :
    (chunksAux n fuel xs).flatten = xs := by
  induction fuel generalizing xs with
  | zero =>
    cases xs with
    | nil => simp [chunksAux]
    | cons c cs => simp at hf
  | succ fuel ih =>
    cases xs with
    | nil => simp [chunksAux]
    | cons c cs =>
      simp only [chunksAux, List.flatten_cons]
      rw [ih ((c :: cs).drop n)
        (by simp only [List.length_drop, List.length_cons] at hf ⊢; omega)]
      exact List.take_append_drop n (c :: cs)

theorem chunksAux_length (n fuel : Nat) (xs : List Char)
    (hf : xs.length ≤ fuel) (hn : 0 < n) :
    (chunksAux n fuel xs).length = (xs.length + n - 1) / n := by
  induction fuel generalizing xs with
  | zero =>
    cases xs with
    | nil =>
      have h0 : (0 + n - 1) / n = 0 := Nat.div_eq_of_lt (by omega)
      simp only [chunksAux, List.length_nil]
      omega
    | cons c cs => simp at hf
  | succ fuel ih =>
    cases xs with
    | nil =>
      have h0 : (0 + n - 1) / n = 0 := Nat.div_eq_of_lt (by omega)
      simp only [chunksAux, List.length_nil]
      omega
    | cons c cs =>
      simp only [chunksAux, List.length_cons]
      rw [ih ((c :: cs).drop n)
        (by simp only [List.length_drop, List.length_cons] at hf ⊢; omega)]
      simp only [List.length_drop, List.length_cons]
      rcases le_or_lt (cs.length + 1) n with hle | hlt
      · have e1 : cs.length + 1 - n = 0 := by omega
        rw [e1]
        have e3 : (cs.length + 1 + n - 1) / n = 1 := by
          have h1 : cs.length + 1 + n - 1 = (cs.length + 1 - 1) + n := by omega
          rw [h1, Nat.add_div_right _ hn, Nat.div_eq_of_lt (by omega)]
        rw [e3, Nat.div_eq_of_lt (by omega)]
      · have e1 : cs.length + 1 - n + n - 1 = (cs.length - n) + n := by omega
        have e2 : cs.length + 1 + n - 1 = cs.length + n := by omega
        rw [e1, e2, Nat.add_div_right _ hn, Nat.add_div_right _ hn]
        have e3 : cs.length / n = (cs.length - n) / n + 1 :=
          Nat.div_eq_sub_div hn (by omega)
        rw [e3]

/-- Claim C9: output longer than the 4000-character chunk limit is sent as
consecutive slices of at most 4000 characters whose in-order concatenation is
the original string; a 9000-character output gives exactly 3 messages. -/
theorem c9_chunking (xs : List Char) (h : 4000 < xs.length) :
    (∀ c ∈ sentChunks xs, c.length ≤ 4000) ∧
    (sentChunks xs).flatten = xs ∧
    (xs.length = 9000 → (sentChunks xs).length = 3) := by
  have hs : sentChunks xs = chunksAux 4000 xs.length xs := by
    simp [sentChunks, pyChunks, h]
  refine ⟨?_, ?_, ?_⟩
  · rw [hs]; exact chunksAux_le_length 4000 xs.length xs le_rfl (by omega)
  · rw [hs]; exact chunksAux_flatten 4000 xs.length xs le_rfl (by omega)
  · intro h9
    rw [hs, chunksAux_length 4000 xs.length xs le_rfl (by omega), h9]

/-- Witness for C9: a concrete 9000-character output is split into exactly 3
chunks that concatenate back to the output. -/
theorem c9_witness :
    (sentChunks (List.replicate 9000 'a')).length = 3 ∧
    (sentChunks (List.replicate 9000 'a')).flatten = List.replicate 9000 'a' := by
  have h := c9_chunking (List.replicate 9000 'a')
    (by rw [List.length_replicate]; omega)
  exact ⟨h.2.2 (by rw [List.length_replicate]), h.2.1⟩

/-! Claim C5: the recent-context read of `AIAssistant.chat`. -/

theorem pySliceLastN_exact {α : Type} (n : Nat) (pre suf : List α)
    (h : suf.length = n) : pySliceLastN n (pre ++ suf) = suf := by
  have hlen : (pre ++ suf).length - n = pre.length := by
    simp [List.length_append, h]
  rw [pySliceLastN, hlen]
  exact List.drop_left pre suf

/-- Claim C5: for a stored history decomposable as `pre ++ suf` with
`suf` of length `AI_MAX_CONTEXT` (in particular any history longer than
`AI_MAX_CONTEXT`), the recent-context read returns exactly `suf` — the last
`AI_MAX_CONTEXT` entries in original order; for a user with no stored history
it returns the empty list. -/
theorem c5_recent_context (ctxs : Contexts) (uid : Int) :
    (∀ pre suf, ctxGet ctxs uid = pre ++ suf → suf.length = AI_MAX_CONTEXT →
      recentContext ctxs uid = suf) ∧
    (ctxs.lookup uid = none → recentContext ctxs uid = []) := by
  constructor
  · intro pre suf hdec hlen
    rw [recentContext, hdec]
    exact pySliceLastN_exact _ pre suf hlen
  · intro hmiss
    simp [recentContext, ctxGet, hmiss, pySliceLastN]

/-- Witness for C5: a 12-entry history yields exactly its last 10 entries, and
an unknown user yields the empty list. -/
theorem c5_witness :
    recentContext [((0 : Int),
      List.replicate 2 (Msg.mk "user" "old") ++
        List.replicate 10 (Msg.mk "user" "new"))] 0 =
      List.replicate 10 (Msg.mk "user" "new") ∧
    recentContext [] 7 = [] := by
  constructor
  · exact (c5_recent_context _ 0).1 (List.replicate 2 ⟨"user", "old"⟩)
      (List.replicate 10 ⟨"user", "new"⟩) rfl rfl
  · exact (c5_recent_context [] 7).2 rfl

/-! Claim C4: boundedness of the stored conversation history. -/

theorem ctxGet_ctxSet (m : Contexts) (uid : Int) (v : List Msg) :
    ctxGet (ctxSet m uid v) uid = v := by
  induction m with
  | nil => simp [ctxSet, ctxGet, List.lookup]
  | cons p rest ih =>
    obtain ⟨k, w⟩ := p
    by_cases hk : k = uid
    · simp [ctxSet, hk, ctxGet, List.lookup]
    · simp only [ctxSet, if_neg hk]
      show (List.lookup uid ((k, w) :: ctxSet rest uid v)).getD [] = v
      have huk : (uid == k) = false := beq_eq_false_iff_ne.mpr (Ne.symm hk)
      simp only [List.lookup, huk]
      exact ih

/-- Counterexample for C4: with the store already holding
`AI_MAX_CONTEXT = 10` entries for user 0, one `chat` call appends two more
entries and leaves 12 stored — the stored history exceeds the configured
maximum, so no FIFO eviction of the store happens. -/
theorem c4_counterexample :
    (ctxGet (chat ⟨true, fun _ => false⟩
        (.reply "\x7b\"conversation\":\"ok\"\x7d")
        [((0 : Int), List.replicate 10 (Msg.mk "user" "m"))] 0 "hola").2 0).length = 12 ∧
    AI_MAX_CONTEXT < 12 := by
  exact ⟨rfl, by decide⟩

/-- Claim C4 as amended: a `chat` call on an available assistant with a model
reply appends the user message and the stripped reply to the stored history
with no eviction (the store grows by exactly two entries and is unbounded);
only the context re-read into the model prompt is truncated — the message
list sent upstream has at most `AI_MAX_CONTEXT + 2` entries. -/
theorem c4_amended_store_unbounded (env : ChatEnv) (ctxs : Contexts)
    (uid : Int) (msg t sys : String) (h : env.available = true) :
    (chat env (.reply t) ctxs uid msg).2 =
      ctxSet ctxs uid (ctxGet ctxs uid ++ [⟨"user", msg⟩, ⟨"assistant", pyStrip t⟩]) ∧
    (ctxGet (chat env (.reply t) ctxs uid msg).2 uid).length =
      (ctxGet ctxs uid).length + 2 ∧
    (buildMessages sys ctxs uid msg).length ≤ AI_MAX_CONTEXT + 2 := by
  have hsnd : (chat env (.reply t) ctxs uid msg).2 =
      ctxSet ctxs uid (ctxGet ctxs uid ++ [⟨"user", msg⟩, ⟨"assistant", pyStrip t⟩]) := by
    cases hp : parseAIResponse (pyStrip t) <;> simp [chat, h, hp]
  refine ⟨hsnd, ?_, ?_⟩
  · rw [hsnd, ctxGet_ctxSet]
    simp
  · simp [buildMessages, pySliceLastN, AI_MAX_CONTEXT]
    omega

/-- Witness for C4's amended statement at a concrete call: the store goes from
0 to 2 entries with the exact appended messages. -/
theorem c4_amended_witness :
    (chat ⟨true, fun _ => false⟩ (.reply "hola!") [] 0 "saluda").2 =
      ctxSet [] 0 (ctxGet [] 0 ++ [⟨"user", "saluda"⟩, ⟨"assistant", pyStrip "hola!"⟩]) ∧
    (ctxGet (chat ⟨true, fun _ => false⟩ (.reply "hola!") [] 0 "saluda").2 0).length =
      (ctxGet ([] : Contexts) 0).length + 2 := by
  have h := c4_amended_store_unbounded ⟨true, fun _ => false⟩ [] 0 "saluda" "hola!" "sys" rfl
  exact ⟨h.1, h.2.1⟩

/-! Claim C2: classification order of the dispatcher. -/

/-- Counterexample for C2: the claim puts `tool`+`parameters` second in the
checking order, so for a parsed reply holding `tool`, `parameters` and
`question` it predicts a Tool-execution action; the dispatcher checks
`question` first and yields a Question action instead. -/
theorem c2_counterexample :
    classify [("tool", .str "nmap"),
              ("parameters", .obj [("target", .str "10.0.0.1")]),
              ("question", .str "which scan type?")] =
      .question (.str "which scan type?") (.arr []) ∧
    classify [("tool", .str "nmap"),
              ("parameters", .obj [("target", .str "10.0.0.1")]),
              ("question", .str "which scan type?")] ≠
      .execute (.str "nmap") (.obj [("target", .str "10.0.0.1")])
        (.str "Ejecutando...") :=
  ⟨rfl, fun h => nomatch h⟩

/-- Claim C2 as amended: the dispatcher classifies a parsed reply by checking
keys in the order `conversation`, `question`, `tool_not_installed`,
`tool`+`parameters` (both required), `error`, first match winning; a reply in
which none of these keys match is routed to an explicit unknown-response
fallback message — never silently ignored — though that message differs from
the parse-failure error message. -/
theorem c2_amended_classification_order (d : List (String × Json)) :
    (∀ v, d.lookup "conversation" = some v → classify d = .conversation v) ∧
    (d.lookup "conversation" = none →
      ∀ q, d.lookup "question" = some q →
        classify d = .question q ((d.lookup "suggestions").getD (.arr []))) ∧
    (d.lookup "conversation" = none → d.lookup "question" = none →
      ∀ tv cv, d.lookup "tool_not_installed" = some tv →
        d.lookup "install_command" = some cv →
        classify d = .toolNotInstalled tv cv
          ((d.lookup "explanation").getD (.str ""))) ∧
    (d.lookup "conversation" = none → d.lookup "question" = none →
      d.lookup "tool_not_installed" = none →
      ∀ tv pv, d.lookup "tool" = some tv → d.lookup "parameters" = some pv →
        classify d = .execute tv pv
          ((d.lookup "explanation").getD (.str "Ejecutando..."))) ∧
    (d.lookup "conversation" = none → d.lookup "question" = none →
      d.lookup "tool_not_installed" = none →
      (d.lookup "tool" = none ∨ d.lookup "parameters" = none) →
      ∀ ev, d.lookup "error" = some ev →
        classify d = .error ev ((d.lookup "suggestion").getD (.str ""))) ∧
    (d.lookup "conversation" = none → d.lookup "question" = none →
      d.lookup "tool_not_installed" = none →
      (d.lookup "tool" = none ∨ d.lookup "parameters" = none) →
      d.lookup "error" = none → classify d = .unknown) := by
  refine ⟨?_, ?_, ?_, ?_, ?_, ?_⟩
  · intro v hv
    simp [classify, hv]
  · intro hc q hq
    simp [classify, hc, hq]
  · intro hc hq tv cv htv hcv
    simp [classify, hc, hq, htv, hcv]
  · intro hc hq hni tv pv htv hpv
    simp [classify, hc, hq, hni, htv, hpv]
  · intro hc hq hni htp ev hev
    rcases htp with htv | hpv
    · simp [classify, hc, hq, hni, htv, hev]
    · cases htv : d.lookup "tool" <;>
        simp [classify, hc, hq, hni, htv, hpv, hev]
  · intro hc hq hni htp herr
    rcases htp with htv | hpv
    · simp [classify, hc, hq, hni, htv, herr]
    · cases htv : d.lookup "tool" <;>
        simp [classify, hc, hq, hni, htv, hpv, herr]

/-- Witness for C2's amended statement: a pure question reply is routed to
the Question action with the default empty suggestion list. -/
theorem c2_amended_witness :
    classify [("question", .str "what is the target?")] =
      .question (.str "what is the target?") (.arr []) :=
  (c2_amended_classification_order [("question", .str "what is the target?")]).2.1
    rfl (.str "what is the target?") rfl

/-! Claim C3: malformed model output and upstream failures surface as
Error-shaped chat results, never as uncaught exceptions. -/

/-- Claim C3: with the assistant available, every upstream-API failure and
every model reply whose (fence-stripped) text fails to parse as JSON makes
`chat` return a dict carrying an `error` key with a human-readable string;
`chat` is a total function of the call outcome, so neither case propagates an
exception to the transport layer. -/
theorem c3_errors_are_dicts (env : ChatEnv) (ctxs : Contexts) (uid : Int)
    (msg : String) (h : env.available = true) :
    (∀ emsg, ∃ kvs m, (chat env (.failure emsg) ctxs uid msg).1 = .obj kvs ∧
      kvs.lookup "error" = some (.str m)) ∧
    (∀ t, parseAIResponse (pyStrip t) = none →
      ∃ kvs m, (chat env (.reply t) ctxs uid msg).1 = .obj kvs ∧
        kvs.lookup "error" = some (.str m)) := by
  constructor
  · intro emsg
    refine ⟨[("error", .str ("Error de IA: " ++ emsg)),
             ("suggestion", .str "Intenta de nuevo o usa comandos directos")],
            "Error de IA: " ++ emsg, ?_, rfl⟩
    simp [chat, h, errGeneric]
  · intro t hp
    refine ⟨[("error", .str "Error al parsear respuesta de IA"),
             ("suggestion",
              .str "Intenta reformular tu pregunta. La IA está respondiendo texto en lugar de JSON.")],
            "Error al parsear respuesta de IA", ?_, rfl⟩
    simp [chat, h, hp, errParse]

/-- Witness for C3: a concrete upstream failure and a concrete non-JSON model
reply both produce an error dict. -/
theorem c3_witness :
    (∃ kvs m,
      (chat ⟨true, fun _ => false⟩ (.failure "Request timed out") [] 0 "hola").1 =
        .obj kvs ∧ kvs.lookup "error" = some (.str m)) ∧
    (∃ kvs m,
      (chat ⟨true, fun _ => false⟩ (.reply "claro, puedo ayudarte") [] 0 "hola").1 =
        .obj kvs ∧ kvs.lookup "error" = some (.str m)) :=
  ⟨(c3_errors_are_dicts ⟨true, fun _ => false⟩ [] 0 "hola" rfl).1 "Request timed out",
   (c3_errors_are_dicts ⟨true, fun _ => false⟩ [] 0 "hola" rfl).2
     "claro, puedo ayudarte" rfl⟩

/-! Claim C1: the tool-availability substitution in `chat` and the resulting
dispatch. -/

/-- Claim C1: for a parsed model reply containing the key `tool` (with a
string name), if the availability check reports the tool absent then `chat`
returns the ToolNotInstalled-shaped dict carrying that name and its install
command, which the dispatcher routes to the ToolNotInstalled action — not a
Tool-execution action, so no tool is executed; if the check reports it
present, `chat` passes the reply through unchanged and the dispatcher yields
the Tool-execution action with exactly that name and those parameters (given
the reply is a tool reply: no earlier routing key is present and `parameters`
is). -/
theorem c1_tool_availability (env : ChatEnv) (ctxs : Contexts) (uid : Int)
    (msg t : String) (kvs : List (String × Json)) (name : String)
    (hav : env.available = true)
    (hp : parseAIResponse (pyStrip t) = some (.obj kvs))
    (ht : kvs.lookup "tool" = some (.str name)) :
    (env.installed name = false →
      (chat env (.reply t) ctxs uid msg).1 =
        .obj [("tool_not_installed", .str name),
              ("install_command", .str (suggestInstallCommand name)),
              ("offer_install", .bool true),
              ("explanation",
               .str (name ++ " no está instalada. ¿Quieres que la instale?"))] ∧
      classify [("tool_not_installed", .str name),
                ("install_command", .str (suggestInstallCommand name)),
                ("offer_install", .bool true),
                ("explanation",
                 .str (name ++ " no está instalada. ¿Quieres que la instale?"))] =
        .toolNotInstalled (.str name) (.str (suggestInstallCommand name))
          (.str (name ++ " no está instalada. ¿Quieres que la instale?"))) ∧
    (env.installed name = true →
      (chat env (.reply t) ctxs uid msg).1 = .obj kvs ∧
      (kvs.lookup "conversation" = none → kvs.lookup "question" = none →
        kvs.lookup "tool_not_installed" = none →
        ∀ ps, kvs.lookup "parameters" = some ps →
          classify kvs = .execute (.str name) ps
            ((kvs.lookup "explanation").getD (.str "Ejecutando...")))) := by
  constructor
  · intro hni
    constructor
    · simp [chat, hav, hp, chatToolStep, ht, checkToolInstalled, hni,
        suggestInstallForValue, pyFStr]
    · rfl
  · intro hi
    constructor
    · simp [chat, hav, hp, chatToolStep, ht, checkToolInstalled, hi]
    · intro hc hq hni ps hps
      simp [classify, hc, hq, hni, ht, hps]

/-- Witness for C1 at the spec's example reply
`{"tool":"nmap","parameters":{"target":"10.0.0.1"},"explanation":"scan"}`:
with nmap absent, chat returns the ToolNotInstalled dict for nmap; with nmap
present, chat passes the reply through and the dispatcher yields the
Tool-execution action for nmap with those parameters. -/
theorem c1_witness :
    (chat ⟨true, fun _ => false⟩
        (.reply "\x7b\"tool\":\"nmap\",\"parameters\":\x7b\"target\":\"10.0.0.1\"\x7d,\"explanation\":\"scan\"\x7d")
        [] 0 "escanea 10.0.0.1").1 =
      .obj [("tool_not_installed", .str "nmap"),
            ("install_command", .str (suggestInstallCommand "nmap")),
            ("offer_install", .bool true),
            ("explanation",
             .str ("nmap" ++ " no está instalada. ¿Quieres que la instale?"))] ∧
    (chat ⟨true, fun s => s == "nmap"⟩
        (.reply "\x7b\"tool\":\"nmap\",\"parameters\":\x7b\"target\":\"10.0.0.1\"\x7d,\"explanation\":\"scan\"\x7d")
        [] 0 "escanea 10.0.0.1").1 =
      .obj [("tool", .str "nmap"),
            ("parameters", .obj [("target", .str "10.0.0.1")]),
            ("explanation", .str "scan")] ∧
    classify [("tool", .str "nmap"),
              ("parameters", .obj [("target", .str "10.0.0.1")]),
              ("explanation", .str "scan")] =
      .execute (.str "nmap") (.obj [("target", .str "10.0.0.1")]) (.str "scan") := by
  refine ⟨?_, ?_, ?_⟩
  · exact ((c1_tool_availability ⟨true, fun _ => false⟩ [] 0 "escanea 10.0.0.1"
      "\x7b\"tool\":\"nmap\",\"parameters\":\x7b\"target\":\"10.0.0.1\"\x7d,\"explanation\":\"scan\"\x7d"
      [("tool", .str "nmap"),
       ("parameters", .obj [("target", .str "10.0.0.1")]),
       ("explanation", .str "scan")]
      "nmap" rfl rfl rfl).1 rfl).1
  · exact ((c1_tool_availability ⟨true, fun s => s == "nmap"⟩ [] 0 "escanea 10.0.0.1"
      "\x7b\"tool\":\"nmap\",\"parameters\":\x7b\"target\":\"10.0.0.1\"\x7d,\"explanation\":\"scan\"\x7d"
      [("tool", .str "nmap"),
       ("parameters", .obj [("target", .str "10.0.0.1")]),
       ("explanation", .str "scan")]
      "nmap" rfl rfl rfl).2 rfl).1
  · exact ((c1_tool_availability ⟨true, fun s => s == "nmap"⟩ [] 0 "escanea 10.0.0.1"
      "\x7b\"tool\":\"nmap\",\"parameters\":\x7b\"target\":\"10.0.0.1\"\x7d,\"explanation\":\"scan\"\x7d"
      [("tool", .str "nmap"),
       ("parameters", .obj [("target", .str "10.0.0.1")]),
       ("explanation", .str "scan")]
      "nmap" rfl rfl rfl).2 rfl).2 rfl rfl rfl
      (.obj [("target", .str "10.0.0.1")]) rfl

/-! Claim C8: password redaction in `ToolSystemManager._run_command`. -/

theorem star_infix_step (pat ys : List Char) (hne : pat ≠ [])
    (hstar : '*' ∉ pat) (h : pat <:+: '*' :: ys) : pat <:+: ys := by
  rcases List.infix_cons_iff.mp h with hpre | hinf
  · cases pat with
    | nil => exact absurd rfl hne
    | cons p ps =>
      rcases List.cons_prefix_cons.mp hpre with ⟨rfl, -⟩
      exact absurd (List.mem_cons_self _ _) hstar
  · exact hinf

theorem replace_star_preserves_prefixes (pat : List Char) :
    ∀ fuel (xs q : List Char), '*' ∉ q →
      q <+: replaceAux pat "***".data fuel xs → q <+: xs := by
  intro fuel
  induction fuel with
  | zero =>
    intro xs q hq h
    cases xs with
    | nil => simpa [replaceAux] using h
    | cons c cs => simpa [replaceAux] using h
  | succ fuel ih =>
    intro xs q hq h
    cases xs with
    | nil => simpa [replaceAux] using h
    | cons c cs =>
      by_cases hcond : pat ≠ [] ∧ pat.isPrefixOf (c :: cs)
      · rw [replaceAux, if_pos hcond] at h
        cases q with
        | nil => exact List.nil_prefix
        | cons a q' =>
          rcases List.cons_prefix_cons.mp (by simpa using h) with ⟨rfl, -⟩
          exact absurd (List.mem_cons_self _ _) hq
      · rw [replaceAux, if_neg hcond] at h
        cases q with
        | nil => exact List.nil_prefix
        | cons a q' =>
          rcases List.cons_prefix_cons.mp h with ⟨rfl, hq'⟩
          refine List.cons_prefix_cons.mpr ⟨rfl, ?_⟩
          exact ih cs q' (fun hm => hq (List.mem_cons_of_mem _ hm)) hq'

theorem replaceAux_no_occurrence (p : Char) (ps : List Char)
    (hstar : '*' ∉ p :: ps) :
    ∀ fuel xs, xs.length ≤ fuel →
      ¬ (p :: ps) <:+: replaceAux (p :: ps) "***".data fuel xs := by
  intro fuel
  induction fuel with
  | zero =>
    intro xs hlen h
    cases xs with
    | nil =>
      rw [show replaceAux (p :: ps) "***".data 0 [] = [] from rfl,
        List.infix_nil] at h
      exact nomatch h
    | cons c cs => simp at hlen
  | succ fuel ih =>
    intro xs hlen h
    cases xs with
    | nil =>
      rw [show replaceAux (p :: ps) "***".data (fuel + 1) [] = [] from rfl,
        List.infix_nil] at h
      exact nomatch h
    | cons c cs =>
      by_cases hcond : p :: ps ≠ [] ∧ (p :: ps).isPrefixOf (c :: cs)
      · rw [replaceAux, if_pos hcond] at h
        have hne : p :: ps ≠ [] := List.cons_ne_nil p ps
        have hh : (p :: ps) <:+:
            '*' :: '*' :: '*' ::
              replaceAux (p :: ps) "***".data fuel (cs.drop ((p :: ps).length - 1)) := by
          simpa using h
        have h1 := star_infix_step _ _ hne hstar
          (star_infix_step _ _ hne hstar (star_infix_step _ _ hne hstar hh))
        refine ih (cs.drop ((p :: ps).length - 1)) ?_ h1
        simp only [List.length_drop, List.length_cons] at hlen ⊢
        omega
      · rw [replaceAux, if_neg hcond] at h
        rcases List.infix_cons_iff.mp h with hpre | hinf
        · rcases List.cons_prefix_cons.mp hpre with ⟨rfl, hps⟩
          have hp2 : ps <+: cs :=
            replace_star_preserves_prefixes (p :: ps) fuel cs ps
              (fun hm => hstar (List.mem_cons_of_mem _ hm)) hps
          refine hcond ⟨List.cons_ne_nil p ps, ?_⟩
          rw [ List.isPrefixOf_iff_prefix]
          exact List.cons_prefix_cons.mpr ⟨rfl, hp2⟩
        · refine ih cs ?_ hinf
          simp only [List.length_cons] at hlen
          omega

theorem strContains_redact (pw s : String) (h1 : pw ≠ "") (h2 : '*' ∉ pw.data) :
    strContains pw (pyReplaceStr s pw "***") = false := by
  show containsSeq pw.data
    (replaceAux pw.data "***".data s.data.length s.data) = false
  by_contra hb
  have hc : containsSeq pw.data
      (replaceAux pw.data "***".data s.data.length s.data) = true := by
    revert hb
    cases containsSeq pw.data
      (replaceAux pw.data "***".data s.data.length s.data) <;> simp
  rw [containsSeq_iff] at hc
  cases hpat : pw.data with
  | nil => exact data_ne_nil_of_ne_empty pw h1 hpat
  | cons p ps =>
    rw [hpat] at hc h2
    exact replaceAux_no_occurrence p ps h2 s.data.length s.data le_rfl hc

/-- Counterexample for C8: on the spawn-failure branch `_run_command` returns
the raw effective command, so with a configured root password the `command`
field of the failure result contains the password in clear. -/
theorem c8_counterexample :
    ∃ kvs,
      (systemRunCommand "hunter2" "ls /root" 60 true
        (.spawnFailure "FileNotFoundError")).1 = .obj kvs ∧
      kvs.lookup "command" = some (.str "echo \"hunter2\" | sudo -S ls /root") ∧
      strContains "hunter2" "echo \"hunter2\" | sudo -S ls /root" = true :=
  ⟨_, rfl, rfl, rfl⟩

/-- Claim C8 as amended: on the success and timeout branches of
`_run_command`, when a root password is configured (and, as any real
password-free marker requires, contains no `*`), the reported `command` field
no longer contains the password — every occurrence was replaced by `***`; the
spawn-failure branch is exempt and reports the raw command. -/
theorem c8_amended_redaction (pw cmd : String) (timeout : Nat) (useSudo : Bool)
    (out err : String) (rc : Int) (h1 : pw ≠ "") (h2 : '*' ∉ pw.data) :
    (∃ kvs c,
      (systemRunCommand pw cmd timeout useSudo (.completed out err rc)).1 = .obj kvs ∧
      kvs.lookup "command" = some (.str c) ∧ strContains pw c = false) ∧
    (∃ kvs c,
      (systemRunCommand pw cmd timeout useSudo .timedOut).1 = .obj kvs ∧
      kvs.lookup "command" = some (.str c) ∧ strContains pw c = false) := by
  have hred : strContains pw
      (redactedCommand pw (effectiveCommand pw cmd useSudo)) = false := by
    rw [redactedCommand, if_pos h1]
    exact strContains_redact _ _ h1 h2
  exact ⟨⟨_, _, rfl, rfl, hred⟩, ⟨_, _, rfl, rfl, hred⟩⟩

/-- Witness for C8's amended statement at a concrete sudo command with
password `hunter2`: the success-branch command field is redacted. -/
theorem c8_amended_witness :
    ∃ kvs c,
      (systemRunCommand "hunter2" "ls /root" 60 true (.completed "o" "e" 0)).1 =
        .obj kvs ∧
      kvs.lookup "command" = some (.str c) ∧
      strContains "hunter2" c = false :=
  (c8_amended_redaction "hunter2" "ls /root" 60 true "o" "e" 0
    (by decide) (by decide)).1

/-! Claim C6: fence stripping in `_parse_ai_response`.  The backtick
character is named `btick` throughout. -/

/-- The backtick character. -/
def btick : Char := Char.ofNat 96

theorem isPySpace_btick : isPySpace btick = false := by decide

theorem fence_eq : "```".data = [btick, btick, btick] := by decide

theorem fenceJson_eq :
    "```json".data = btick :: btick :: btick :: 'j' :: 's' :: 'o' :: 'n' :: [] := by
  decide

theorem fenceJson_decomp : "```json".data = "```".data ++ "json".data := by decide

theorem btick_not_mem_json : btick ∉ "json".data := by decide

theorem pySplit_head_aux (pat : List Char) :
    ∀ (n : Nat) (xs : List Char), xs.length ≤ n →
      (pySplit pat xs).head? = some (beforeFirst pat xs) := by
  intro n
  induction n with
  | zero =>
    intro xs h
    cases xs with
    | nil => simp [pySplit, beforeFirst]
    | cons c cs => simp at h
  | succ n ih =>
    intro xs h
    cases xs with
    | nil => simp [pySplit, beforeFirst]
    | cons c cs =>
      by_cases hcond : pat ≠ [] ∧ pat.isPrefixOf (c :: cs)
      · simp only [pySplit, beforeFirst, if_pos hcond, List.head?_cons]
      · have hcs := ih cs (by simp only [List.length_cons] at h; omega)
        rcases hsp : pySplit pat cs with _ | ⟨s, ss⟩
        · rw [hsp] at hcs
          simp at hcs
        · rw [hsp] at hcs
          simp only [List.head?_cons, Option.some.injEq] at hcs
          simp only [pySplit, beforeFirst, if_neg hcond, hsp, List.head?_cons, hcs]

theorem pySplit_head (pat xs : List Char) :
    (pySplit pat xs).head? = some (beforeFirst pat xs) :=
  pySplit_head_aux pat xs.length xs le_rfl

theorem pySplit_self_append (p : Char) (ps ys : List Char) :
    pySplit (p :: ps) ((p :: ps) ++ ys) = [] :: pySplit (p :: ps) ys := by
  have hpre : (p :: ps).isPrefixOf (p :: (ps ++ ys)) = true := by
    rw [ List.isPrefixOf_iff_prefix]
    exact (p :: ps).prefix_append ys
  rw [List.cons_append, pySplit, if_pos ⟨List.cons_ne_nil p ps, hpre⟩]
  simp only [List.length_cons, Nat.add_sub_cancel]
  rw [List.drop_left]

theorem beforeFirst_clean_append (ps inner zs : List Char)
    (hcl : btick ∉ inner) :
    beforeFirst (btick :: ps) (inner ++ zs) =
      inner ++ beforeFirst (btick :: ps) zs := by
  induction inner with
  | nil => simp
  | cons c cs ih =>
    have hc : c ≠ btick ∧ btick ∉ cs := by
      constructor
      · intro hcc
        exact hcl (by rw [hcc]; exact List.mem_cons_self _ _)
      · intro hm
        exact hcl (List.mem_cons_of_mem _ hm)
    have hnp : ¬ ((btick :: ps) ≠ [] ∧
        (btick :: ps).isPrefixOf (c :: (cs ++ zs))) := by
      rintro ⟨-, hp⟩
      rw [ List.isPrefixOf_iff_prefix] at hp
      rcases List.cons_prefix_cons.mp hp with ⟨heq, -⟩
      exact hc.1 heq.symm
    rw [List.cons_append, beforeFirst, if_neg hnp, ih hc.2, List.cons_append]

theorem beforeFirst_nil (pat : List Char) : beforeFirst pat [] = [] := rfl

theorem beforeFirst_clean (ps inner : List Char) (hcl : btick ∉ inner) :
    beforeFirst (btick :: ps) inner = inner := by
  have h := beforeFirst_clean_append ps inner [] hcl
  simpa [beforeFirst_nil] using h

theorem beforeFirst_fence_self (ys : List Char) :
    beforeFirst "```".data ("```".data ++ ys) = [] := by
  rw [fence_eq]
  have hpre : ([btick, btick, btick] : List Char).isPrefixOf
      (btick :: ([btick, btick] ++ ys)) = true := by
    rw [ List.isPrefixOf_iff_prefix]
    exact ([btick, btick, btick] : List Char).prefix_append ys
  rw [List.cons_append, beforeFirst,
    if_pos ⟨List.cons_ne_nil btick [btick, btick], hpre⟩]

theorem beforeFirst_fence_fence (rest : List Char)
    (hrest : rest.head? ≠ some btick) :
    beforeFirst "```".data (beforeFirst "```json".data ("```".data ++ rest)) = [] := by
  by_cases hjson : ("json".data).isPrefixOf rest = true
  · have hpre : ("```json".data).isPrefixOf ("```".data ++ rest) = true := by
      rw [ List.isPrefixOf_iff_prefix, fenceJson_decomp,
        List.prefix_append_right_inj]
      exact List.isPrefixOf_iff_prefix.mp hjson
    have hbf : beforeFirst "```json".data ("```".data ++ rest) = [] := by
      have hcond : "```json".data ≠ [] ∧
          ("```json".data).isPrefixOf (btick :: ([btick, btick] ++ rest)) := by
        constructor
        · rw [fenceJson_eq]
          exact List.cons_ne_nil _ _
        · have hform : btick :: ([btick, btick] ++ rest) = "```".data ++ rest := by
            rw [fence_eq]
            rfl
          rw [hform]
          exact hpre
      rw [fence_eq]
      show beforeFirst "```json".data (btick :: ([btick, btick] ++ rest)) = []
      rw [beforeFirst, if_pos hcond]
    rw [hbf, beforeFirst_nil]
  · have hjson' : ("json".data).isPrefixOf rest = false := by
      revert hjson
      cases ("json".data).isPrefixOf rest <;> simp
    have hw : beforeFirst "```json".data ("```".data ++ rest) =
        btick :: btick :: btick :: beforeFirst "```json".data rest := by
      have c1 : ("```json".data).isPrefixOf
          (btick :: btick :: btick :: rest) = false := by
        rw [fenceJson_eq]
        simp only [List.isPrefixOf, beq_self_eq_true, Bool.true_and]
        exact hjson'
      have c2 : ("```json".data).isPrefixOf (btick :: btick :: rest) = false := by
        rw [fenceJson_eq]
        cases rest with
        | nil => rfl
        | cons d ds =>
          have hd : (btick == d) = false := by
            refine beq_eq_false_iff_ne.mpr ?_
            intro hdd
            exact hrest (by rw [← hdd]; rfl)
          simp only [List.isPrefixOf, beq_self_eq_true, Bool.true_and, hd,
            Bool.false_and]
      have c3 : ("```json".data).isPrefixOf (btick :: rest) = false := by
        rw [fenceJson_eq]
        cases rest with
        | nil => rfl
        | cons d ds =>
          have hd : (btick == d) = false := by
            refine beq_eq_false_iff_ne.mpr ?_
            intro hdd
            exact hrest (by rw [← hdd]; rfl)
          simp only [List.isPrefixOf, beq_self_eq_true, Bool.true_and, hd,
            Bool.false_and]
      rw [fence_eq]
      show beforeFirst "```json".data (btick :: btick :: btick :: rest) = _
      rw [beforeFirst, if_neg (by rintro ⟨-, hp⟩; rw [c1] at hp; exact nomatch hp),
        beforeFirst, if_neg (by rintro ⟨-, hp⟩; rw [c2] at hp; exact nomatch hp),
        beforeFirst, if_neg (by rintro ⟨-, hp⟩; rw [c3] at hp; exact nomatch hp)]
    rw [hw]
    have : beforeFirst "```".data
        (btick :: btick :: btick :: beforeFirst "```json".data rest) = [] := by
      have hpre : ("```".data).isPrefixOf
          (btick :: btick :: btick :: beforeFirst "```json".data rest) = true := by
        rw [fence_eq, List.isPrefixOf_iff_prefix]
        exact ⟨beforeFirst "```json".data rest, rfl⟩
      rw [beforeFirst, if_pos ⟨by rw [fence_eq]; exact List.cons_ne_nil _ _, hpre⟩]
    exact this

theorem pySplit_cons_shape (pat xs : List Char) :
    ∃ tl, pySplit pat xs = beforeFirst pat xs :: tl := by
  have hh := pySplit_head pat xs
  rcases hsp : pySplit pat xs with _ | ⟨s, ss⟩
  · rw [hsp] at hh
    exact nomatch hh
  · rw [hsp] at hh
    simp only [List.head?_cons, Option.some.injEq] at hh
    exact ⟨ss, by rw [hh]⟩

theorem pyGetD_cons_one (pat xs : List Char) :
    pyGetD ([] :: pySplit pat xs) 1 = beforeFirst pat xs := by
  obtain ⟨tl, htl⟩ := pySplit_cons_shape pat xs
  rw [htl]
  rfl

theorem pyGetD_split_zero (pat xs : List Char) :
    pyGetD (pySplit pat xs) 0 = beforeFirst pat xs := by
  obtain ⟨tl, htl⟩ := pySplit_cons_shape pat xs
  rw [htl]
  rfl

theorem rstripL_append (a b : List Char) :
    rstripL (a ++ b) = if rstripL b = [] then rstripL a else a ++ rstripL b := by
  rw [rstripL, List.reverse_append, List.dropWhile_append]
  by_cases he : (b.reverse.dropWhile isPySpace).isEmpty = true
  · have hb : rstripL b = [] := by
      rw [rstripL, List.isEmpty_iff.mp he]
      rfl
    rw [if_pos he, if_pos hb]
    rfl
  · have hb : rstripL b ≠ [] := by
      rw [rstripL]
      intro hh
      apply he
      rw [List.isEmpty_iff]
      have h2 := congrArg List.reverse hh
      simpa using h2
    rw [if_neg he, if_neg hb, List.reverse_append, List.reverse_reverse]
    rfl

theorem rstripL_ne_nil_of_btick (z : List Char) (hz : btick ∈ z) :
    rstripL z ≠ [] := by
  rw [rstripL]
  intro hh
  have h2 : z.reverse.dropWhile isPySpace = [] := by
    have h3 := congrArg List.reverse hh
    simpa using h3
  rw [List.dropWhile_eq_nil_iff] at h2
  have h4 := h2 btick (List.mem_reverse.mpr hz)
  rw [isPySpace_btick] at h4
  exact nomatch h4

theorem lstripL_btick_append (q z : List Char) :
    lstripL ((btick :: q) ++ z) = (btick :: q) ++ z := by
  simp [lstripL, List.dropWhile_cons, isPySpace_btick]

theorem pyStripL_btick_append (q z : List Char)
    (hr : rstripL (btick :: q) = btick :: q) :
    pyStripL ((btick :: q) ++ z) =
      if rstripL z = [] then btick :: q else (btick :: q) ++ rstripL z := by
  rw [pyStripL, lstripL_btick_append, rstripL_append, hr]

theorem fenceJson_isPrefixOf_strip (z : List Char) :
    ("```json".data).isPrefixOf
      (pyStripL ("```json".data ++ z)) = true := by
  rw [fenceJson_eq]
  rw [pyStripL_btick_append _ z (by decide)]
  by_cases hz : rstripL z = []
  · rw [if_pos hz, List.isPrefixOf_iff_prefix]
  · rw [if_neg hz, List.isPrefixOf_iff_prefix]
    exact List.prefix_append _ _

theorem fence_isPrefixOf_strip (z : List Char) :
    ("```".data).isPrefixOf (pyStripL ("```".data ++ z)) = true := by
  rw [fence_eq]
  show (btick :: [btick, btick]).isPrefixOf
    (pyStripL ((btick :: [btick, btick]) ++ z)) = true
  rw [pyStripL_btick_append _ z (by decide)]
  by_cases hz : rstripL z = []
  · rw [if_pos hz, List.isPrefixOf_iff_prefix]
  · rw [if_neg hz, List.isPrefixOf_iff_prefix]
    exact List.prefix_append _ _

theorem prefix_of_append_btick (q inner T : List Char) (hq : btick ∉ q)
    (h : q <+: inner ++ btick :: T) : q <+: inner := by
  induction inner generalizing q with
  | nil =>
    rw [List.nil_append] at h
    cases q with
    | nil => exact List.nil_prefix
    | cons a q' =>
      rcases List.cons_prefix_cons.mp h with ⟨rfl, -⟩
      exact absurd (List.mem_cons_self _ _) hq
  | cons c cs ih =>
    rw [List.cons_append] at h
    cases q with
    | nil => exact List.nil_prefix
    | cons a q' =>
      rcases List.cons_prefix_cons.mp h with ⟨rfl, h2⟩
      exact List.cons_prefix_cons.mpr
        ⟨rfl, ih q' (fun hm => hq (List.mem_cons_of_mem _ hm)) h2⟩

theorem fenceJson_not_prefix_of_bare (inner rest : List Char)
    (hj : ("json".data).isPrefixOf inner = false) :
    ("```json".data).isPrefixOf
      (pyStripL ("```".data ++ (inner ++ ("```".data ++ rest)))) = false := by
  have hZ : rstripL (inner ++ ("```".data ++ rest)) ≠ [] := by
    refine rstripL_ne_nil_of_btick _ ?_
    refine List.mem_append.mpr (Or.inr ?_)
    refine List.mem_append.mpr (Or.inl ?_)
    rw [fence_eq]
    exact List.mem_cons_self _ _
  have hFR : ∃ T, rstripL ("```".data ++ rest) = btick :: T := by
    rw [rstripL_append]
    by_cases hz : rstripL rest = []
    · rw [if_pos hz]
      exact ⟨[btick, btick], by decide⟩
    · rw [if_neg hz, fence_eq]
      exact ⟨[btick, btick] ++ rstripL rest, rfl⟩
  have hstrip : pyStripL ("```".data ++ (inner ++ ("```".data ++ rest))) =
      "```".data ++ rstripL (inner ++ ("```".data ++ rest)) := by
    rw [fence_eq]
    show pyStripL ((btick :: [btick, btick]) ++ (inner ++ ("```".data ++ rest))) = _
    rw [pyStripL_btick_append _ _ (by decide), if_neg hZ]
    rfl
  have hsplit : rstripL (inner ++ ("```".data ++ rest)) =
      inner ++ rstripL ("```".data ++ rest) := by
    rw [rstripL_append]
    have hne2 : rstripL ("```".data ++ rest) ≠ [] := by
      refine rstripL_ne_nil_of_btick _ ?_
      refine List.mem_append.mpr (Or.inl ?_)
      rw [fence_eq]
      exact List.mem_cons_self _ _
    rw [if_neg hne2]
  obtain ⟨T, hT⟩ := hFR
  rw [hstrip, hsplit, hT]
  cases hb : ("```json".data).isPrefixOf ("```".data ++ (inner ++ btick :: T)) with
  | false => rfl
  | true =>
    exfalso
    have hpre : "```json".data <+: "```".data ++ (inner ++ btick :: T) :=
      List.isPrefixOf_iff_prefix.mp hb
    rw [fenceJson_decomp, List.prefix_append_right_inj] at hpre
    have hjq : "json".data <+: inner :=
      prefix_of_append_btick _ inner T btick_not_mem_json hpre
    have hjb : ("json".data).isPrefixOf inner = true :=
      List.isPrefixOf_iff_prefix.mpr hjq
    rw [hj] at hjb
    exact nomatch hjb

/-- Claim C6: for every model reply that begins with a fenced code block
(either the ` ```json ` marker or a plain ` ``` ` fence, with backtick-free
fenced content and the text after the closing fence not starting with a
backtick), `_parse_ai_response` strips the fence and parses exactly the first
fenced region's contents (stripped of surrounding whitespace) with
`json.loads`. -/
theorem c6_fence_stripping (inner rest : List Char)
    (hclean : btick ∉ inner)
    (hrest : rest.head? ≠ some btick)
    (hj : ("json".data).isPrefixOf inner = false) :
    parseAIResponse ⟨"```json".data ++ (inner ++ ("```".data ++ rest))⟩ =
      jsonLoads (pyStripL inner) ∧
    parseAIResponse ⟨"```".data ++ (inner ++ ("```".data ++ rest))⟩ =
      jsonLoads (pyStripL inner) := by
  constructor
  · have hdata : (⟨"```json".data ++ (inner ++ ("```".data ++ rest))⟩ : String).data =
        "```json".data ++ (inner ++ ("```".data ++ rest)) := rfl
    unfold parseAIResponse
    rw [hdata, if_pos (fenceJson_isPrefixOf_strip (inner ++ ("```".data ++ rest)))]
    have e1 : pySplit "```json".data
        ("```json".data ++ (inner ++ ("```".data ++ rest))) =
        [] :: pySplit "```json".data (inner ++ ("```".data ++ rest)) := by
      rw [fenceJson_eq]
      exact pySplit_self_append _ _ _
    rw [e1, pyGetD_cons_one]
    have e3 : beforeFirst "```json".data (inner ++ ("```".data ++ rest)) =
        inner ++ beforeFirst "```json".data ("```".data ++ rest) := by
      rw [fenceJson_eq]
      exact beforeFirst_clean_append _ _ _ hclean
    rw [e3, pyGetD_split_zero]
    have e5 : beforeFirst "```".data
        (inner ++ beforeFirst "```json".data ("```".data ++ rest)) =
        inner ++ beforeFirst "```".data
          (beforeFirst "```json".data ("```".data ++ rest)) := by
      rw [fence_eq]
      exact beforeFirst_clean_append _ _ _ hclean
    rw [e5, beforeFirst_fence_fence rest hrest, List.append_nil]
  · have hdata : (⟨"```".data ++ (inner ++ ("```".data ++ rest))⟩ : String).data =
        "```".data ++ (inner ++ ("```".data ++ rest)) := rfl
    have hc1 := fenceJson_not_prefix_of_bare inner rest hj
    unfold parseAIResponse
    rw [hdata, if_neg (by rw [hc1]; exact Bool.false_ne_true),
      if_pos (fence_isPrefixOf_strip (inner ++ ("```".data ++ rest)))]
    have e1 : pySplit "```".data ("```".data ++ (inner ++ ("```".data ++ rest))) =
        [] :: pySplit "```".data (inner ++ ("```".data ++ rest)) := by
      rw [fence_eq]
      exact pySplit_self_append _ _ _
    rw [e1, pyGetD_cons_one]
    have e3 : beforeFirst "```".data (inner ++ ("```".data ++ rest)) =
        inner ++ beforeFirst "```".data ("```".data ++ rest) := by
      rw [fence_eq]
      exact beforeFirst_clean_append _ _ _ hclean
    rw [e3, beforeFirst_fence_self rest, List.append_nil, pyGetD_split_zero]
    have e4 : beforeFirst "```".data inner = inner := by
      rw [fence_eq]
      exact beforeFirst_clean _ _ hclean
    rw [e4]

/-- Witness for C6 at the spec's example: a reply that is exactly a
` ```json ` fenced block containing the conversation-"hi" object parses to the
conversation object, which the dispatcher routes to a Conversation action
with text "hi". -/
theorem c6_witness :
    (⟨"```json".data ++ ("\n\x7b\"conversation\":\"hi\"\x7d\n".data ++
        ("```".data ++ []))⟩ : String) =
      "```json\n\x7b\"conversation\":\"hi\"\x7d\n```" ∧
    parseAIResponse ⟨"```json".data ++ ("\n\x7b\"conversation\":\"hi\"\x7d\n".data ++
        ("```".data ++ []))⟩ = some (.obj [("conversation", .str "hi")]) ∧
    classify [("conversation", .str "hi")] = .conversation (.str "hi") := by
  refine ⟨rfl, ?_, rfl⟩
  have h := (c6_fence_stripping "\n\x7b\"conversation\":\"hi\"\x7d\n".data []
    (by decide) (by decide) (by decide)).1
  rw [h]
  rfl

end KaliMCP
